import Mathlib

set_option maxRecDepth 10000

/-!
Verification development for the document-analysis pipeline of
`streamlit_ui_v1.py`.

The source is a Python/Streamlit application.  The shallow embedding below
translates the pipeline's pure decision logic into Lean:

* PDF access (`pdfplumber`) is modelled by `PdfDoc`: either the byte stream
  fails to open (`corrupt`), or it yields a list of per-page extraction
  results (`pages`), each page giving `none` (no text layer) or `some` text,
  exactly the values `page.extract_text()` can produce.
* The AWS Bedrock transport (everything in `bedrock_calling` up to and
  including reading `response_text` from the HTTP response) is an external
  collaborator; it is modelled as an `Except String String` argument:
  `Except.error e` is a raised transport exception with message `e`,
  `Except.ok t` is the model's raw response text `t`.
* `json.loads` is modelled by `json_loads`, a fueled recursive-descent
  parser over `List Char` producing `JsonVal` (objects, arrays, strings,
  integers, booleans, null, with the standard one-character escapes).
  Python's float/exponent number forms and `\uXXXX` escapes are outside the
  subset the model accepts; no claim touches them.
* Python string primitives used by the code (`str.find`, `str.rfind`,
  slicing with negative indices, `str.strip`, `"\n".join`) are embedded as
  `pyFindL`, `pyRFindL`, `pySlice`, `trimL`, `pyJoinNl` over `List Char`.

Streamlit UI calls (`st.error`, `st.status`, expanders) only display text;
where a claim mentions the reported condition the displayed message is kept
as data (for example the second component of `is_scanned_pdf`).
-/

namespace DocParsing

/-- A parsed JSON value, the result type of the modelled `json.loads`. -/
inductive JsonVal where
  | null
  | bool (b : Bool)
  | num (n : Int)
  | str (s : String)
  | arr (elems : List JsonVal)
  | obj (members : List (String × JsonVal))

/-- The character `{` (written via its code point to keep it out of source text). -/
def lbrace : Char := Char.ofNat 123

/-- The character `}`. -/
def rbrace : Char := Char.ofNat 125

/-- The double-quote character. -/
def qmark : Char := Char.ofNat 34

/-- The backslash character. -/
def bslash : Char := Char.ofNat 92

/-- The newline character. -/
def nl : Char := Char.ofNat 10

/-- Whitespace accepted between JSON tokens (Python's json skips exactly
space, tab, newline, carriage return). -/
def isWsChar (c : Char) : Bool :=
  decide (c = ' ') || decide (c = Char.ofNat 9) ||
    decide (c = Char.ofNat 10) || decide (c = Char.ofNat 13)

/-- Drop leading inter-token whitespace. -/
def skipWs : List Char → List Char
  | [] => []
  | c :: cs => if isWsChar c then skipWs cs else c :: cs

/-- Translate a JSON escape character (the character after a backslash inside
a string literal).  `\uXXXX` escapes are not in the modelled subset. -/
def escChar (e : Char) : Option Char :=
  if e = qmark then some qmark
  else if e = bslash then some bslash
  else if e = '/' then some '/'
  else if e = 'n' then some (Char.ofNat 10)
  else if e = 't' then some (Char.ofNat 9)
  else if e = 'r' then some (Char.ofNat 13)
  else if e = 'b' then some (Char.ofNat 8)
  else if e = 'f' then some (Char.ofNat 12)
  else none

/-- Parse the body of a JSON string literal (the opening quote already
consumed); returns the decoded characters and the rest of the input. -/
def parseStringBody : List Char → Option (List Char × List Char)
  | [] => none
  | c :: cs =>
      if c = qmark then some ([], cs)
      else if c = bslash then
        match cs with
        | [] => none
        | e :: cs2 =>
            match escChar e, parseStringBody cs2 with
            | some ec, some (s, r) => some (ec :: s, r)
            | _, _ => none
      else
        match parseStringBody cs with
        | some (s, r) => some (c :: s, r)
        | none => none

/-- Numeric value of a list of decimal digit characters. -/
def digitsVal (l : List Char) : Nat :=
  l.foldl (fun a c => a * 10 + (c.toNat - 48)) 0

/-- Parse a JSON integer token (optional minus sign followed by digits).
Float and exponent forms are outside the modelled subset. -/
def parseIntTok (l : List Char) : Option (JsonVal × List Char) :=
  match l with
  | c :: rest =>
      if c = '-' then
        let ds := rest.takeWhile Char.isDigit
        let r := rest.dropWhile Char.isDigit
        if ds.isEmpty then none else some (.num (-(digitsVal ds : Int)), r)
      else
        let ds := (c :: rest).takeWhile Char.isDigit
        let r := (c :: rest).dropWhile Char.isDigit
        if ds.isEmpty then none else some (.num (digitsVal ds), r)
  | [] => none

/-- What the fueled parser is currently parsing: a value, the elements of an
array after `[`, or the members of an object after the opening brace. -/
inductive PMode where
  | val
  | elems
  | members

/-- Fueled recursive-descent JSON parser.  In `elems` mode the result is the
`JsonVal.arr` of the remaining elements, in `members` mode the `JsonVal.obj`
of the remaining members; both also return the unconsumed input. -/
def pj : Nat → PMode → List Char → Option (JsonVal × List Char)
  | 0, _, _ => none
  | fuel + 1, PMode.val, l =>
      match skipWs l with
      | [] => none
      | c :: cs =>
          if c = qmark then
            match parseStringBody cs with
            | some (s, r) => some (.str (String.mk s), r)
            | none => none
          else if c = lbrace then
            match skipWs cs with
            | [] => none
            | c2 :: cs2 =>
                if c2 = rbrace then some (.obj [], cs2)
                else pj fuel PMode.members (c2 :: cs2)
          else if c = '[' then
            match skipWs cs with
            | [] => none
            | c2 :: cs2 =>
                if c2 = ']' then some (.arr [], cs2)
                else pj fuel PMode.elems (c2 :: cs2)
          else if c = 't' then
            match cs with
            | 'r' :: 'u' :: 'e' :: r => some (.bool true, r)
            | _ => none
          else if c = 'f' then
            match cs with
            | 'a' :: 'l' :: 's' :: 'e' :: r => some (.bool false, r)
            | _ => none
          else if c = 'n' then
            match cs with
            | 'u' :: 'l' :: 'l' :: r => some (.null, r)
            | _ => none
          else if c = '-' || c.isDigit then parseIntTok (c :: cs)
          else none
  | fuel + 1, PMode.elems, l =>
      match pj fuel PMode.val l with
      | none => none
      | some (v, r) =>
          match skipWs r with
          | [] => none
          | c :: r2 =>
              if c = ',' then
                match pj fuel PMode.elems r2 with
                | some (JsonVal.arr vs, r3) => some (.arr (v :: vs), r3)
                | _ => none
              else if c = ']' then some (.arr [v], r2)
              else none
  | fuel + 1, PMode.members, l =>
      match skipWs l with
      | [] => none
      | c :: cs =>
          if c = qmark then
            match parseStringBody cs with
            | none => none
            | some (k, r) =>
                match skipWs r with
                | ':' :: r2 =>
                    match pj fuel PMode.val r2 with
                    | none => none
                    | some (v, r3) =>
                        match skipWs r3 with
                        | [] => none
                        | c2 :: r4 =>
                            if c2 = ',' then
                              match pj fuel PMode.members r4 with
                              | some (JsonVal.obj ms, r5) =>
                                  some (.obj ((String.mk k, v) :: ms), r5)
                              | _ => none
                            else if c2 = rbrace then
                              some (.obj [(String.mk k, v)], r4)
                            else none
                | _ => none
          else none

/-- Model of Python's `json.loads` on the modelled subset: parse one value
and require that only whitespace remains. -/
def json_loads (l : List Char) : Option JsonVal :=
  match pj (2 * l.length + 2) PMode.val l with
  | some (v, rest) => if (skipWs rest).isEmpty then some v else none
  | none => none

/-- Python `str.find(c)`: index of the first occurrence, `-1` when absent. -/
def pyFindL : List Char → Char → Int
  | [], _ => -1
  | x :: xs, c =>
      if x = c then 0
      else
        let r := pyFindL xs c
        if r = -1 then -1 else r + 1

/-- Python `str.rfind(c)`: index of the last occurrence, `-1` when absent. -/
def pyRFindL : List Char → Char → Int
  | [], _ => -1
  | x :: xs, c =>
      let r := pyRFindL xs c
      if r = -1 then (if x = c then 0 else -1) else r + 1

/-- Python slice-index normalisation for a string of length `n`: a negative
index counts from the end, and the result is clamped to `[0, n]`. -/
def pyNorm (n : Nat) (i : Int) : Nat :=
  if i < 0 then ((n : Int) + i).toNat else min i.toNat n

/-- Python slicing `s[a:b]` (step 1), including negative indices. -/
def pySlice (l : List Char) (a b : Int) : List Char :=
  (l.drop (pyNorm l.length a)).take (pyNorm l.length b - pyNorm l.length a)

/-- Lines 159-161 of the source: `start = response_text.find('{')`,
`end = response_text.rfind('}') + 1`, `response_text[start:end]`. -/
def braceExtract (s : String) : List Char :=
  pySlice s.data (pyFindL s.data lbrace) (pyRFindL s.data rbrace + 1)

/-- The dictionary `\x7b"error": str(e)\x7d` that `bedrock_calling` returns on any
failure.  The spec's error taxonomy names the parse-failure instance of this
value `MalformedResponse`; the code encodes every failure this way. -/
def errDict (msg : String) : JsonVal := JsonVal.obj [("error", JsonVal.str msg)]

/-- Stands for `str(e)` of the `json.JSONDecodeError` raised when the brace
slice fails to parse.  In Python the message text depends on the input; no
behaviour of the pipeline depends on it, so it is a fixed constant here. -/
def jsonDecodeErrMsg : String := "Expecting value"

/-- Lines 107-166 of the source, `bedrock_calling`: everything up to reading
`response_text` (AWS session, request, HTTP round trip) is the external
transport, given here as `Except.error e` (an exception raised with message
`e`) or `Except.ok text`.  On text, the function takes the slice from the
first `\x7b` to the last `\x7d` and parses it; the surrounding `try/except`
converts every failure into the `errDict` dictionary, so the function is
total and never raises. -/
def bedrock_calling (transport : Except String String) : JsonVal :=
  match transport with
  | Except.error e => errDict e
  | Except.ok response_text =>
      match json_loads (braceExtract response_text) with
      | some v => v
      | none => errDict jsonDecodeErrMsg

/-- Lines 168-183 of the source, `get_document_class`: builds the fixed
classification prompts (external constants, absorbed into the transport) and
returns the `bedrock_calling` result unchanged — the function performs no
validation of the returned object. -/
def get_document_class (transport : Except String String) : JsonVal :=
  bedrock_calling transport

/-- Python `str(x)` as used in the f-string
`f"Invalid document class: \x7bdoc_class\x7d"`, for the values a parsed JSON field
(or a missing one, Python `None`) can be.  The rendering of composite
values is abbreviated; no claim depends on it. -/
def pyStr : Option JsonVal → String
  | none => "None"
  | some JsonVal.null => "None"
  | some (JsonVal.bool true) => "True"
  | some (JsonVal.bool false) => "False"
  | some (JsonVal.num n) => toString n
  | some (JsonVal.str s) => s
  | some (JsonVal.arr _) => "<list>"
  | some (JsonVal.obj _) => "<dict>"

/-- Membership of `doc_class` in the two prompt dictionaries of
`get_document_analysis` (lines 197-213), whose keys are the integers 0-5.
Python dict membership uses `==`/`hash`, under which `True == 1` and
`False == 0`, so a boolean is a member as well; every other value (missing
field, null, string, list, dict, out-of-range integer) is not. -/
def inPromptMapping : Option JsonVal → Bool
  | some (JsonVal.num n) => decide (0 ≤ n ∧ n ≤ 5)
  | some (JsonVal.bool _) => true
  | _ => false

/-- Result of the analysis stage: the returned dictionary, plus whether the
inference service (Bedrock) was actually invoked on the way. -/
structure AnalysisOut where
  result : JsonVal
  calledBedrock : Bool

/-- Lines 185-224 of the source, `get_document_analysis`: if `doc_class` is
not a key of the prompt mappings, report and return an error dictionary
without calling Bedrock; otherwise build the category's prompts (external)
and return the `bedrock_calling` result. -/
def get_document_analysis (doc_class : Option JsonVal)
    (transport : Except String String) : AnalysisOut :=
  if inPromptMapping doc_class then
    ⟨bedrock_calling transport, true⟩
  else
    ⟨errDict ("Invalid document class: " ++ pyStr doc_class), false⟩

/-- A PDF byte stream as `pdfplumber` sees it: either opening/parsing it
raises (corrupt bytes, message `e`), or it yields pages whose
`extract_text()` returns `none` or `some` text. -/
inductive PdfDoc where
  | corrupt (e : String)
  | pages (ps : List (Option String))

/-- Python `str.strip()` (whitespace removed from both ends). -/
def trimL (l : List Char) : List Char :=
  ((l.dropWhile Char.isWhitespace).reverse.dropWhile Char.isWhitespace).reverse

/-- The `text_content` accumulated by lines 71-79 of the source: the
concatenation of the extractable text of the first `min 3 (len pages)`
pages (a page with no text contributes nothing). -/
def sampled_text (ps : List (Option String)) : List Char :=
  ((ps.take (min 3 ps.length)).map (fun t => (t.getD "").data)).foldl
    (fun a b => a ++ b) []

/-- Lines 55-90 of the source, `is_scanned_pdf`.  First component: the
returned boolean (`true` = scanned).  Second component: the message shown
with `st.error` when opening the stream raised, the non-fatal report to the
caller; `none` when nothing was reported. -/
def is_scanned_pdf : PdfDoc → Bool × Option String
  | PdfDoc.corrupt e => (true, some ("Error checking PDF: " ++ e))
  | PdfDoc.pages ps =>
      if ps.length = 0 then (true, none)
      else if (trimL (sampled_text ps)).length > 100 then (false, none)
      else (true, none)

/-- Python `"\n".join`. -/
def pyJoinNl : List (List Char) → List Char
  | [] => []
  | [x] => x
  | x :: y :: rest => x ++ nl :: pyJoinNl (y :: rest)

/-- Line 254 of the source: `"\n".join([page.extract_text() or "" for page
in pdf.pages])` — every page of the document, in order, a text-less page
contributing the empty string. -/
def extract_all (ps : List (Option String)) : List Char :=
  pyJoinNl (ps.map fun t => (t.getD "").data)

/-- Lines 92-105 of the source, `insert_document`: returns
`"doc_" + datetime.now().strftime(...)`; the clock reading is the external
argument `now`. -/
def insert_document (now : String) : String := "doc_" ++ now

/-- How one `process_document` run ends: the user-facing rejection of a
scanned document (`st.error` then `return None`), an exception caught by the
outer `try/except` (also `return None`, different message), or the returned
`\x7b"result": ...\x7d` dictionary. -/
inductive ProcOutcome where
  | rejectedScanned
  | failed (msg : String)
  | ok (record : JsonVal)

/-- Observable outcome of one pipeline run: the returned value, how many
classification and analysis calls reached the inference service, and the
`extracted_text` computed at line 254 (when execution got there). -/
structure PipelineOutput where
  outcome : ProcOutcome
  classificationCalls : Nat
  analysisCalls : Nat
  extractedText : Option (List Char)

/-- Python `dict.get(k)` for an object's member list.  A JSON object with a
repeated key keeps the last occurrence, hence the search from the right. -/
def dictGet (kvs : List (String × JsonVal)) (k : String) : Option JsonVal :=
  match kvs.reverse.find? (fun p => decide (p.1 = k)) with
  | some p => some p.2
  | none => none

/-- Lines 226-283 of the source, `process_document`: scan check, full text
extraction, classification call, analysis call, record assembly.
`ctransport`/`atransport` are the transports of the classification and
analysis Bedrock calls; `now` is the clock reading used by
`insert_document`.  The fallback branch is the outer `try/except` catching
the `AttributeError` of `.get` on a non-dict (unreachable: `bedrock_calling`
always returns a dict). -/
def process_document (doc : PdfDoc) (ctransport atransport : Except String String)
    (now : String) : PipelineOutput :=
  if (is_scanned_pdf doc).1 then
    ⟨ProcOutcome.rejectedScanned, 0, 0, none⟩
  else
    match doc with
    | PdfDoc.corrupt e =>
        ⟨ProcOutcome.failed ("Error processing document: " ++ e), 0, 0, none⟩
    | PdfDoc.pages ps =>
        let extracted_text := extract_all ps
        match get_document_class ctransport with
        | JsonVal.obj ckvs =>
            let doc_class := dictGet ckvs "class"
            let a := get_document_analysis doc_class atransport
            ⟨ProcOutcome.ok (JsonVal.obj [("result", JsonVal.obj
                [("document_type", (dictGet ckvs "category").getD JsonVal.null),
                 ("analysis", a.result),
                 ("mongo_obj_id", JsonVal.str (insert_document now))])]),
             1, if a.calledBedrock then 1 else 0, some extracted_text⟩
        | _ =>
            ⟨ProcOutcome.failed "AttributeError", 1, 0, some extracted_text⟩

/-- An input contains a `\x7b` ... `\x7d` pair: some `\x7b` occurs with a `\x7d` at the
same or a later position (the same position is impossible, the characters
differ). -/
def containsBracePair : List Char → Bool
  | [] => false
  | c :: cs =>
      (decide (c = lbrace) && cs.any fun d => decide (d = rbrace))
        || containsBracePair cs

/-- An object carries an `"error"` key (how every failure of
`bedrock_calling` presents itself to callers). -/
def hasErrorKey : JsonVal → Bool
  | JsonVal.obj kvs => kvs.any fun p => decide (p.1 = "error")
  | _ => false

/-- A 150-character page text, comfortably above the 100-character scan
threshold, used for concrete witnesses. -/
def longText : String := String.mk (List.replicate 150 'a')

/-- A concrete two-page text document used by witnesses and counterexamples. -/
def bigPages : List (Option String) := [some longText, some "second page"]

/-- The mocked classification response text of the spec's end-to-end
scenario B. -/
def scenBClassText : String := "\x7b\"class\":0,\"category\":\"Passport\"\x7d"

/-- The mocked analysis response text of the spec's end-to-end scenario B. -/
def scenBAnalysisText : String :=
  "\x7b\"summary\":\"ok\",\"extracted_fields\":\x7b\"name\":\"Jane Doe\"\x7d\x7d"

/-- The record scenario B of the spec expects, written out. -/
def scenBRecord : JsonVal :=
  JsonVal.obj [("result", JsonVal.obj
    [("document_type", JsonVal.str "Passport"),
     ("analysis", JsonVal.obj [("summary", JsonVal.str "ok"),
        ("extracted_fields", JsonVal.obj [("name", JsonVal.str "Jane Doe")])]),
     ("mongo_obj_id", JsonVal.str "doc_20260101")])]

/-- Where `pyFindL` can land: `-1`, or a valid index holding the sought
character. -/
theorem pyFindL_cases (l : List Char) (c : Char) :
    pyFindL l c = -1
      ∨ ∃ i : Nat, pyFindL l c = (i : Int) ∧ l.get? i = some c ∧ i < l.length := by
  induction l with
  | nil => left; rfl
  | cons x xs ih =>
    by_cases hx : x = c
    · right
      exact ⟨0, by simp [pyFindL, hx], by simp [hx], by simp⟩
    · rcases ih with h | ⟨i, hi, hg, hl⟩
      · left; simp [pyFindL, hx, h]
      · right
        refine ⟨i + 1, ?_, by simpa using hg, by simpa using Nat.succ_lt_succ hl⟩
        have hne : (i : Int) ≠ -1 := by omega
        simp [pyFindL, hx, hi, hne]

/-- Where `pyRFindL` can land: `-1`, or a valid index holding the sought
character. -/
theorem pyRFindL_cases (l : List Char) (c : Char) :
    pyRFindL l c = -1
      ∨ ∃ j : Nat, pyRFindL l c = (j : Int) ∧ l.get? j = some c ∧ j < l.length := by
  induction l with
  | nil => left; rfl
  | cons x xs ih =>
    rcases ih with h | ⟨j, hj, hg, hl⟩
    · by_cases hx : x = c
      · right
        exact ⟨0, by simp [pyRFindL, h, hx], by simp [hx], by simp⟩
      · left; simp [pyRFindL, h, hx]
    · right
      refine ⟨j + 1, ?_, by simpa using hg, by simpa using Nat.succ_lt_succ hl⟩
      have hne : (j : Int) ≠ -1 := by omega
      simp [pyRFindL, hj, hne]

/-- `pyNorm` at `-1` (the value `str.find` gives for a missing character). -/
theorem pyNorm_neg_one (n : Nat) : pyNorm n (-1) = n - 1 := by
  unfold pyNorm
  rw [if_pos (by norm_num)]
  omega

/-- `pyNorm` at a value already a natural number. -/
theorem pyNorm_nat (n i : Nat) : pyNorm n (i : Int) = min i n := by
  unfold pyNorm
  rw [if_neg (by omega)]
  congr 1

/-- `pyNorm` at `0`. -/
theorem pyNorm_zero (n : Nat) : pyNorm n 0 = 0 := by
  simpa using pyNorm_nat n 0

/-- A slice whose normalised end does not exceed its normalised start is
empty. -/
theorem pySlice_eq_nil (l : List Char) (a b : Int)
    (h : pyNorm l.length b ≤ pyNorm l.length a) : pySlice l a b = [] := by
  unfold pySlice
  rw [Nat.sub_eq_zero_of_le h, List.take_zero]

/-- Dropping up to the last position of a list leaves exactly the last
element. -/
theorem drop_last_eq (l : List Char) (j : Nat) (c : Char)
    (hg : l.get? j = some c) (hj : j + 1 = l.length) : l.drop j = [c] := by
  induction l generalizing j with
  | nil => simp at hg
  | cons x xs ih =>
    cases j with
    | zero =>
      simp only [List.get?_cons_zero, Option.some.injEq] at hg
      simp only [List.length_cons] at hj
      have hxs : xs = [] := List.length_eq_zero.mp (by omega)
      simp [hxs, hg]
    | succ j' =>
      simp only [List.get?_cons_succ] at hg
      simp only [List.length_cons] at hj
      simpa using ih j' hg (by omega)

/-- When the input has no brace pair, the slice `s[start:end]` of lines
159-161 is empty or the single closing brace — either way not valid JSON. -/
theorem noPair_slice (l : List Char)
    (hnp : ∀ i j : Nat, i ≤ j → l.get? i = some lbrace → l.get? j = some rbrace → False) :
    pySlice l (pyFindL l lbrace) (pyRFindL l rbrace + 1) = []
      ∨ pySlice l (pyFindL l lbrace) (pyRFindL l rbrace + 1) = [rbrace] := by
  rcases pyFindL_cases l lbrace with hf | ⟨i, hf, hgi, hil⟩
  · rcases pyRFindL_cases l rbrace with hr | ⟨j, hr, hgj, hjl⟩
    · left
      rw [hf, hr]
      norm_num
      exact pySlice_eq_nil l (-1) 0 (by rw [pyNorm_zero]; exact Nat.zero_le _)
    · rw [hf, hr]
      by_cases hlast : j + 1 = l.length
      · right
        have hb : ((j : Int) + 1) = ((j + 1 : Nat) : Int) := by push_cast; ring
        unfold pySlice
        rw [hb, pyNorm_nat, pyNorm_neg_one]
        have h1 : min (j + 1) l.length = l.length := by omega
        have h2 : j = l.length - 1 := by omega
        rw [h1]
        have h3 : l.length - (l.length - 1) = 1 := by omega
        have h4 : l.drop (l.length - 1) = [rbrace] := by
          rw [← h2]
          exact drop_last_eq l j rbrace hgj hlast
        rw [h3, h4]
        rfl
      · left
        have hb : ((j : Int) + 1) = ((j + 1 : Nat) : Int) := by push_cast; ring
        refine pySlice_eq_nil l (-1) ((j : Int) + 1) ?_
        rw [hb, pyNorm_nat, pyNorm_neg_one]
        omega
  · have hji : ∀ j : Nat, l.get? j = some rbrace → j < i := by
      intro j hj
      by_contra h
      exact hnp i j (by omega) hgi hj
    rcases pyRFindL_cases l rbrace with hr | ⟨j, hr, hgj, hjl⟩
    · left
      rw [hf, hr]
      norm_num
      refine pySlice_eq_nil l (i : Int) 0 ?_
      rw [pyNorm_zero]
      exact Nat.zero_le _
    · left
      have hlt := hji j hgj
      rw [hf, hr]
      have hb : ((j : Int) + 1) = ((j + 1 : Nat) : Int) := by push_cast; ring
      refine pySlice_eq_nil l (i : Int) ((j : Int) + 1) ?_
      rw [hb, pyNorm_nat, pyNorm_nat]
      omega

/-- Unfolds `containsBracePair`'s negative answer into index form. -/
theorem containsBracePair_spec (l : List Char) (h : containsBracePair l = false) :
    ∀ i j : Nat, i ≤ j → l.get? i = some lbrace → l.get? j = some rbrace → False := by
  induction l with
  | nil => intro i j _ hg _; simp at hg
  | cons x xs ih =>
    simp only [containsBracePair, Bool.or_eq_false_iff, Bool.and_eq_false_iff] at h
    obtain ⟨h1, h2⟩ := h
    intro i j hij hgi hgj
    cases i with
    | zero =>
      simp only [List.get?_cons_zero, Option.some.injEq] at hgi
      cases j with
      | zero =>
        simp only [List.get?_cons_zero, Option.some.injEq] at hgj
        have : lbrace ≠ rbrace := by decide
        exact this (hgi ▸ hgj ▸ rfl)
      | succ j' =>
        simp only [List.get?_cons_succ] at hgj
        have hmem : rbrace ∈ xs := List.get?_mem hgj
        rcases h1 with h1 | h1
        · simp [hgi] at h1
        · have hany : (xs.any fun d => decide (d = rbrace)) = true :=
            List.any_eq_true.mpr ⟨rbrace, hmem, by decide⟩
          rw [h1] at hany
          exact Bool.false_ne_true hany
    | succ i' =>
      cases j with
      | zero => omega
      | succ j' =>
        exact ih h2 i' j' (by omega) (by simpa using hgi) (by simpa using hgj)

/-- The empty slice is not valid JSON. -/
theorem json_loads_nil : json_loads [] = none := rfl

/-- A lone closing brace is not valid JSON. -/
theorem json_loads_rbrace : json_loads [rbrace] = none := rfl

/-- The persisted identifier is never the empty string. -/
theorem insert_document_ne_empty (now : String) : insert_document now ≠ "" := by
  unfold insert_document
  intro h
  have hlen := congrArg String.length h
  rw [String.length_append] at hlen
  have h4 : ("doc_" : String).length = 4 := rfl
  have h0 : ("" : String).length = 0 := rfl
  omega

/-- C1: the client extracts the slice from the first opening brace to the
last closing brace of the response text and parses only it.  On the spec's
example text the parsed object is returned; when the text has no
brace pair, or the slice does not parse, the call ends in the error
dictionary (the code's encoding of `MalformedResponse`) rather than a
payload parsed from the text. -/
theorem C1_invoke_brace_extraction :
    bedrock_calling (Except.ok "blah \x7b\"a\":1\x7d blah")
        = JsonVal.obj [("a", JsonVal.num 1)]
    ∧ (∀ (s : String) (v : JsonVal), json_loads (braceExtract s) = some v →
        bedrock_calling (Except.ok s) = v)
    ∧ (∀ s : String, json_loads (braceExtract s) = none →
        bedrock_calling (Except.ok s) = errDict jsonDecodeErrMsg)
    ∧ (∀ s : String, containsBracePair s.data = false →
        bedrock_calling (Except.ok s) = errDict jsonDecodeErrMsg) := by
  refine ⟨rfl, ?_, ?_, ?_⟩
  · intro s v h
    simp [bedrock_calling, h]
  · intro s h
    simp [bedrock_calling, h]
  · intro s h
    have hnp := containsBracePair_spec s.data h
    rcases noPair_slice s.data hnp with h0 | h0 <;>
      simp [bedrock_calling, braceExtract, h0, json_loads_nil, json_loads_rbrace]

/-- C1 witness: a concrete response text with no brace pair yields the
error dictionary. -/
theorem C1_witness :
    bedrock_calling (Except.ok "no braces at all") = errDict jsonDecodeErrMsg :=
  C1_invoke_brace_extraction.2.2.2 "no braces at all" (by rfl)

/-- C2 counterexample: with a text document and a classification response
that has no parseable body, the pipeline does NOT abort with a terminal
error — it returns an assembled `\x7b"result": ...\x7d` record whose
`document_type` is null and whose `analysis` field is an error dictionary,
with a persisted identifier attached.  (The part of the claim that does
hold: the analysis stage makes no inference call, `analysisCalls = 0`.) -/
theorem C2_counterexample :
    process_document (PdfDoc.pages bigPages) (Except.ok "no json here")
        (Except.error "never used") "T"
      = ⟨ProcOutcome.ok (JsonVal.obj [("result", JsonVal.obj
          [("document_type", JsonVal.null),
           ("analysis", errDict "Invalid document class: None"),
           ("mongo_obj_id", JsonVal.str "doc_T")])]),
         1, 0, some (extract_all bigPages)⟩ := rfl

/-- C2 as amended: when the classification response body is unparseable, no
analysis call reaches the inference service, but the orchestrator does not
abort: it still assembles and returns a record whose `document_type` is
null and whose `analysis` payload is the error dictionary produced by the
dispatch check, persisted identifier included. -/
theorem C2_no_abort_after_classification_failure
    (ps : List (Option String)) (ctext : String) (atp : Except String String)
    (now : String)
    (hsc : (is_scanned_pdf (PdfDoc.pages ps)).1 = false)
    (hparse : json_loads (braceExtract ctext) = none) :
    process_document (PdfDoc.pages ps) (Except.ok ctext) atp now
      = ⟨ProcOutcome.ok (JsonVal.obj [("result", JsonVal.obj
          [("document_type", JsonVal.null),
           ("analysis", errDict "Invalid document class: None"),
           ("mongo_obj_id", JsonVal.str ("doc_" ++ now))])]),
         1, 0, some (extract_all ps)⟩ := by
  have hb : get_document_class (Except.ok ctext) = errDict jsonDecodeErrMsg := by
    simp [get_document_class, bedrock_calling, hparse]
  unfold process_document
  simp only [hsc, Bool.false_eq_true, if_false]
  rw [hb]
  rfl

/-- C2 witness: a concrete run with an unparseable classification body. -/
theorem C2_witness :
    process_document (PdfDoc.pages bigPages) (Except.ok "\x7b broken")
        (Except.ok "unused") "T2"
      = ⟨ProcOutcome.ok (JsonVal.obj [("result", JsonVal.obj
          [("document_type", JsonVal.null),
           ("analysis", errDict "Invalid document class: None"),
           ("mongo_obj_id", JsonVal.str "doc_T2")])]),
         1, 0, some (extract_all bigPages)⟩ :=
  C2_no_abort_after_classification_failure bigPages "\x7b broken"
    (Except.ok "unused") "T2" (by rfl) (by rfl)

/-- C3 counterexample: on a structured object whose `class` field is 9 the
classification stage does not fail — `get_document_class` returns the
object unchanged, with no error marker. -/
theorem C3_counterexample :
    get_document_class (Except.ok "\x7b\"class\":9\x7d")
        = JsonVal.obj [("class", JsonVal.num 9)]
      ∧ hasErrorKey (get_document_class (Except.ok "\x7b\"class\":9\x7d")) = false :=
  ⟨rfl, rfl⟩

/-- C3 as amended: the classification stage itself performs no validation;
a missing `class` field or one outside 0-5 is instead rejected by the
analysis dispatch, which returns an `Invalid document class` error
dictionary without invoking the inference service — so the pipeline never
defaults to category 0 or any other category. -/
theorem C3_validation_at_dispatch :
    (∀ t : Except String String,
        get_document_analysis none t
          = ⟨errDict "Invalid document class: None", false⟩)
    ∧ ∀ (n : Int) (t : Except String String), n < 0 ∨ 5 < n →
        get_document_analysis (some (JsonVal.num n)) t
          = ⟨errDict ("Invalid document class: " ++ toString n), false⟩ := by
  constructor
  · intro t
    rfl
  · intro n t h
    have hm : inPromptMapping (some (JsonVal.num n)) = false := by
      simp only [inPromptMapping, decide_eq_false_iff_not]
      omega
    simp [get_document_analysis, hm, pyStr]

/-- C3 witness: the spec's own example, `category = 9`. -/
theorem C3_witness :
    get_document_analysis (some (JsonVal.num 9)) (Except.ok "unused-response")
      = ⟨errDict "Invalid document class: 9", false⟩ :=
  C3_validation_at_dispatch.2 9 (Except.ok "unused-response") (by norm_num)

/-- C4: the scan heuristic returns `Scanned` (true) exactly when the trimmed
concatenation of the extractable text of the first three pages (all pages
when fewer) has length at most 100; a zero-page document falls under the
same bound (its sampled text is empty). -/
theorem C4_scan_threshold (ps : List (Option String)) :
    (is_scanned_pdf (PdfDoc.pages ps)).1 = true
      ↔ (trimL (sampled_text ps)).length ≤ 100 := by
  by_cases h0 : ps.length = 0
  · have hps : ps = [] := List.length_eq_zero.mp h0
    subst hps
    simp [is_scanned_pdf, sampled_text, trimL]
  · by_cases h1 : (trimL (sampled_text ps)).length > 100
    · simp only [is_scanned_pdf, if_neg h0, if_pos h1]
      constructor
      · intro hfalse
        exact absurd hfalse (by simp)
      · intro hle
        omega
    · simp only [is_scanned_pdf, if_neg h0, if_neg h1]
      constructor
      · intro _
        omega
      · intro _
        trivial

/-- C5: for a document the heuristic does not classify as scanned, the text
the pipeline extracts is the newline-join of the per-page text of every
page in original order, a text-less page contributing the empty string (and
every page contributes exactly one entry). -/
theorem C5_full_extraction (ps : List (Option String))
    (ct atp : Except String String) (now : String)
    (h : (is_scanned_pdf (PdfDoc.pages ps)).1 = false) :
    (process_document (PdfDoc.pages ps) ct atp now).extractedText
        = some (pyJoinNl (ps.map fun t => (t.getD "").data))
      ∧ (ps.map fun t => (t.getD "").data).length = ps.length := by
  constructor
  · unfold process_document
    simp only [h, Bool.false_eq_true, if_false]
    cases hcl : get_document_class ct <;> simp [extract_all]
  · simp

/-- C5 witness: a three-page document whose middle page has no text layer. -/
theorem C5_witness :
    (process_document (PdfDoc.pages [some longText, none, some "x"])
          (Except.error "c") (Except.error "a") "T").extractedText
        = some (pyJoinNl ([some longText, none, some "x"].map
            fun t => (t.getD "").data))
      ∧ ([some longText, none, some "x"].map
            fun t => (t.getD "").data).length
          = ([some longText, none, some "x"] : List (Option String)).length :=
  C5_full_extraction [some longText, none, some "x"]
    (Except.error "c") (Except.error "a") "T" (by rfl)

/-- C6: a byte stream that fails to open or parse is classified scanned
(fail-safe), the condition is reported to the caller as the displayed
message, and the pipeline run ends in the rejection outcome with no
inference call — the functions are total, no fault propagates. -/
theorem C6_corrupt_fail_safe (e : String) (ct atp : Except String String)
    (now : String) :
    is_scanned_pdf (PdfDoc.corrupt e)
        = (true, some ("Error checking PDF: " ++ e))
      ∧ process_document (PdfDoc.corrupt e) ct atp now
          = ⟨ProcOutcome.rejectedScanned, 0, 0, none⟩ :=
  ⟨rfl, rfl⟩

/-- C7: every document the heuristic classifies as scanned ends the run in
the rejection outcome, with zero classification calls and zero analysis
calls to the inference service. -/
theorem C7_scanned_no_inference (doc : PdfDoc)
    (ct atp : Except String String) (now : String)
    (h : (is_scanned_pdf doc).1 = true) :
    process_document doc ct atp now
      = ⟨ProcOutcome.rejectedScanned, 0, 0, none⟩ := by
  unfold process_document
  simp [h]

/-- C7 witness: the spec's scenario A, a one-page document with 20
characters of text. -/
theorem C7_witness :
    process_document (PdfDoc.pages [some "12345678901234567890"])
        (Except.ok "x") (Except.ok "y") "T"
      = ⟨ProcOutcome.rejectedScanned, 0, 0, none⟩ :=
  C7_scanned_no_inference (PdfDoc.pages [some "12345678901234567890"])
    (Except.ok "x") (Except.ok "y") "T" (by rfl)

/-- C8: a `doc_class` that is not a key of the two six-entry prompt
mappings makes the analysis stage return the invalid-class error dictionary
without invoking the inference service; for an integer `doc_class`,
membership is exactly the range 0-5. -/
theorem C8_unknown_category :
    (∀ n : Int, inPromptMapping (some (JsonVal.num n)) = true ↔ 0 ≤ n ∧ n ≤ 5)
    ∧ ∀ (dc : Option JsonVal) (t : Except String String),
        inPromptMapping dc = false →
          get_document_analysis dc t
            = ⟨errDict ("Invalid document class: " ++ pyStr dc), false⟩ := by
  constructor
  · intro n
    simp [inPromptMapping]
  · intro dc t h
    simp [get_document_analysis, h]

/-- C8 witness: the out-of-range class 9 is rejected without an inference
call. -/
theorem C8_witness :
    get_document_analysis (some (JsonVal.num 9)) (Except.error "unused")
      = ⟨errDict "Invalid document class: 9", false⟩ :=
  C8_unknown_category.2 (some (JsonVal.num 9)) (Except.error "unused") (by rfl)

/-- C9: every run that returns an assembled record built it from exactly
the classification object's `category` value as `document_type`, the full
analysis result as `analysis`, and the non-empty identifier from
`insert_document`. -/
theorem C9_assembled_record (ps : List (Option String))
    (ct atp : Except String String) (now : String) (rec : JsonVal)
    (h : (process_document (PdfDoc.pages ps) ct atp now).outcome
        = ProcOutcome.ok rec) :
    ∃ ckvs, bedrock_calling ct = JsonVal.obj ckvs
      ∧ rec = JsonVal.obj [("result", JsonVal.obj
          [("document_type", (dictGet ckvs "category").getD JsonVal.null),
           ("analysis", (get_document_analysis (dictGet ckvs "class") atp).result),
           ("mongo_obj_id", JsonVal.str (insert_document now))])]
      ∧ insert_document now ≠ "" := by
  by_cases hsc : (is_scanned_pdf (PdfDoc.pages ps)).1 = true
  · exfalso
    have heq : process_document (PdfDoc.pages ps) ct atp now
        = ⟨ProcOutcome.rejectedScanned, 0, 0, none⟩ := by
      unfold process_document
      simp [hsc]
    rw [heq] at h
    exact ProcOutcome.noConfusion h
  · have hscf : (is_scanned_pdf (PdfDoc.pages ps)).1 = false :=
      Bool.not_eq_true _ ▸ Bool.eq_false_iff.mpr hsc
    cases hcl : get_document_class ct with
    | obj ckvs =>
        have heq : process_document (PdfDoc.pages ps) ct atp now
            = ⟨ProcOutcome.ok (JsonVal.obj [("result", JsonVal.obj
                [("document_type", (dictGet ckvs "category").getD JsonVal.null),
                 ("analysis",
                    (get_document_analysis (dictGet ckvs "class") atp).result),
                 ("mongo_obj_id", JsonVal.str (insert_document now))])]),
               1,
               if (get_document_analysis (dictGet ckvs "class") atp).calledBedrock
                 then 1 else 0,
               some (extract_all ps)⟩ := by
          unfold process_document
          simp only [hscf, Bool.false_eq_true, if_false]
          rw [hcl]
        rw [heq] at h
        refine ⟨ckvs, by rw [← hcl]; rfl, ?_, insert_document_ne_empty now⟩
        exact (ProcOutcome.ok.inj h).symm
    | null =>
        exfalso
        unfold process_document at h
        rw [hcl] at h
        simp [hscf] at h
    | bool b =>
        exfalso
        unfold process_document at h
        rw [hcl] at h
        simp [hscf] at h
    | num n =>
        exfalso
        unfold process_document at h
        rw [hcl] at h
        simp [hscf] at h
    | str s =>
        exfalso
        unfold process_document at h
        rw [hcl] at h
        simp [hscf] at h
    | arr xs =>
        exfalso
        unfold process_document at h
        rw [hcl] at h
        simp [hscf] at h

/-- C9 witness: the spec's end-to-end scenario B — mocked classification
`class 0, category "Passport"`, mocked analysis with
`extracted_fields.name = "Jane Doe"` — produces exactly the expected
record, `document_type = "Passport"` and non-empty persisted id. -/
theorem C9_witness :
    ∃ ckvs, bedrock_calling (Except.ok scenBClassText) = JsonVal.obj ckvs
      ∧ scenBRecord = JsonVal.obj [("result", JsonVal.obj
          [("document_type", (dictGet ckvs "category").getD JsonVal.null),
           ("analysis", (get_document_analysis (dictGet ckvs "class")
              (Except.ok scenBAnalysisText)).result),
           ("mongo_obj_id", JsonVal.str (insert_document "20260101"))])]
      ∧ insert_document "20260101" ≠ "" :=
  C9_assembled_record bigPages (Except.ok scenBClassText)
    (Except.ok scenBAnalysisText) "20260101" scenBRecord (by rfl)

/-- C10: the inference-call wrapper is total — for every transport outcome
it returns a plain `JsonVal`, never propagating an exception: either the
value parsed from the brace slice of the response text, or an ordinary
dictionary carrying the `"error"` key, of the same type as a success. -/
theorem C10_total_error_as_dict (t : Except String String) :
    (∃ s v, t = Except.ok s ∧ json_loads (braceExtract s) = some v ∧
        bedrock_calling t = v)
      ∨ ∃ msg, bedrock_calling t = errDict msg
          ∧ hasErrorKey (errDict msg) = true := by
  match t with
  | Except.error e => exact Or.inr ⟨e, rfl, rfl⟩
  | Except.ok s =>
      cases hp : json_loads (braceExtract s) with
      | some v =>
          exact Or.inl ⟨s, v, rfl, hp, by simp [bedrock_calling, hp]⟩
      | none =>
          exact Or.inr ⟨jsonDecodeErrMsg, by simp [bedrock_calling, hp], rfl⟩

end DocParsing
